import Mathlib

/-!
# Stack-VR: verification of the placement engine and rubble pool

A shallow embedding of the core game logic of the Stack-VR repository:
the placement state machine (`placeBlock`, `spawnNewBlock`, `spawnRubble`,
`gameOver`, `continueGame`, `startGame`, `cleanup`, `resetGameState`), the
fixed-capacity rubble pool with its per-frame integration loop, and the
per-frame active-block movement from the animation loop.

Conventions of the embedding:
* JavaScript numbers are modelled as rationals (`ℚ`); the quantities involved
  (positions, sizes, speeds, thresholds) are all small decimal literals and the
  identities proved are exact arithmetic facts.
* `performance.now()` readings and `Math.random()` draws enter as explicit
  parameters (`now : ℚ`, `coin : Bool`, random angular velocity, random
  power-up choice).
* Presentation-only state (camera, screen shake, particle sprites, theme
  colours, audio, DOM) is outside the model; the modelled functions never read
  it to decide game logic.
-/

set_option maxRecDepth 100000

namespace StackVR

/-- The two horizontal motion axes, `state.axis` in state.js. -/
inductive Axis
  | x
  | z
deriving DecidableEq, Repr

/-- The other horizontal axis (`axis === 'x' ? 'z' : 'x'`). -/
def Axis.flip : Axis → Axis
  | .x => .z
  | .z => .x

/-- Game status enum from state.js. -/
inductive Status
  | LOADING
  | START
  | PLAYING
  | PAUSED
  | GAMEOVER
deriving DecidableEq, Repr

/-- A 3-component vector (THREE.Vector3 / Euler), with rational components. -/
structure Vec3 where
  x : ℚ
  y : ℚ
  z : ℚ
deriving DecidableEq, Repr

/-- Read the component of `v` on axis `a` (`v[axis]` in the source). -/
def Vec3.getAxis (v : Vec3) : Axis → ℚ
  | .x => v.x
  | .z => v.z

/-- Write the component of `v` on axis `a` (`v[axis] = q`). -/
def Vec3.setAxis (v : Vec3) (a : Axis) (q : ℚ) : Vec3 :=
  match a with
  | .x => { v with x := q }
  | .z => { v with z := q }

/-- A block of the tower: its mesh position, the current geometry footprint
(`geometry.parameters.width/depth`) and the stored base footprint
(`userData.baseWidth/baseDepth`).  Height is the constant `BLOCK_HEIGHT`. -/
structure Block where
  pos : Vec3
  width : ℚ
  depth : ℚ
  baseWidth : ℚ
  baseDepth : ℚ
deriving DecidableEq, Repr

/-- Extent of the block on the motion axis
(`axis === 'x' ? params.width : params.depth`). -/
def Block.sizeOn (b : Block) : Axis → ℚ
  | .x => b.width
  | .z => b.depth

/-- Extent of the block on the perpendicular axis. -/
def Block.otherSizeOn (b : Block) : Axis → ℚ
  | .x => b.depth
  | .z => b.width

/-- One slot of the rubble pool (`state.rubbleData[i]`). -/
structure RubbleSlot where
  isActive : Bool
  position : Vec3
  rotation : Vec3
  scale : Vec3
  velocity : Vec3
  angularVelocity : Vec3
deriving DecidableEq, Repr

/-- The three durable power-up effect records of `state.activePowerUps`. -/
structure SlowMo where
  active : Bool
  duration : ℚ
deriving DecidableEq, Repr

structure SafetyNet where
  active : Bool
  uses : ℕ
deriving DecidableEq, Repr

structure SuperSize where
  active : Bool
  count : ℕ
deriving DecidableEq, Repr

/-- Power-up kinds (the string tags of powerups.js). -/
inductive PowerKind
  | slowMo
  | safetyNet
  | superSize
  | resetSize
deriving DecidableEq, Repr

/-- Difficulty keys of `DIFFICULTIES` in config.js. -/
inductive DiffKey
  | easy
  | medium
  | hard
deriving DecidableEq, Repr

/-- One difficulty configuration row of `DIFFICULTIES`. -/
structure DiffConfig where
  initial : ℚ
  inc : ℚ
  max : ℚ
  mercy : ℕ
  threshold : ℚ
deriving DecidableEq, Repr

/-- The `DIFFICULTIES` table from config.js. -/
def DIFFICULTIES : DiffKey → DiffConfig
  | .easy => { initial := 12/100, inc := 3/1000, max := 35/100, mercy := 8, threshold := 45/100 }
  | .medium => { initial := 18/100, inc := 6/1000, max := 50/100, mercy := 5, threshold := 35/100 }
  | .hard => { initial := 25/100, inc := 12/1000, max := 70/100, mercy := 2, threshold := 20/100 }

/-- `CONFIG.BLOCK_HEIGHT`. -/
def BLOCK_HEIGHT : ℚ := 1

/-- `CONFIG.INITIAL_SIZE`. -/
def INITIAL_SIZE : ℚ := 4

/-- `CONFIG.MAX_RUBBLE`. -/
def MAX_RUBBLE : ℕ := 80

/-- The game state record of state.js, restricted to the fields the core
logic reads or writes.  Fields that only feed the renderer (camera targets,
shake amplitudes, particle sprites, fps counters, theme colours) are
presentation-only and omitted; none of the modelled functions reads them.
`hasScene` models whether `initEngine` has run, i.e. whether the graphics
module globals `scene` and `rubbleInstances` are non-null. -/
structure GameState where
  status : Status
  score : ℕ
  combo : ℕ
  maxSessionCombo : ℕ
  bestScore : ℕ
  bestStreak : ℕ
  difficulty : DiffKey
  axis : Axis
  direction : ℚ
  speed : ℚ
  stack : List Block
  activeBlock : Option Block
  lastSpawnTime : ℚ
  lastTime : ℚ
  flash : ℚ
  powerUps : List (Option PowerKind)
  slowMo : SlowMo
  safetyNet : SafetyNet
  superSize : SuperSize
  lastComboMilestone : ℕ
  continuesUsed : ℕ
  continuePending : Bool
  continueUsed : Bool
  hasScene : Bool
  rubbleData : List RubbleSlot
  rubbleFree : List ℕ
  rubbleActive : List ℕ
deriving DecidableEq, Repr

/-- The initial state literal of state.js (`continuePending`/`continueUsed`
are absent there, i.e. undefined/falsy, modelled as `false`). -/
def initialState : GameState where
  status := .LOADING
  score := 0
  combo := 0
  maxSessionCombo := 0
  bestScore := 0
  bestStreak := 0
  difficulty := .medium
  axis := .x
  direction := 1
  speed := 18/100
  stack := []
  activeBlock := none
  lastSpawnTime := 0
  lastTime := 0
  flash := 0
  powerUps := [none, none, none]
  slowMo := ⟨false, 0⟩
  safetyNet := ⟨false, 0⟩
  superSize := ⟨false, 0⟩
  lastComboMilestone := 0
  continuesUsed := 0
  continuePending := false
  continueUsed := false
  hasScene := false
  rubbleData := []
  rubbleFree := []
  rubbleActive := []

/-- `Math.sign`. -/
def mathSign (q : ℚ) : ℚ :=
  if 0 < q then 1 else if q < 0 then -1 else 0

/-- Shallow embedding of `spawnNewBlock` (game.js).  `now` stands for the
`performance.now()` reading stored into `lastSpawnTime`; `coin` is the
`Math.random() > 0.5` draw that picks the starting side.  On an empty stack
the JS code would dereference `undefined`; that unreachable case is modelled
as leaving the state unchanged (every theorem about it assumes a non-empty
stack). -/
def spawnNewBlock (s : GameState) (now : ℚ) (coin : Bool) : GameState :=
  match s.stack.getLast? with
  | none => s
  | some prev =>
    let ax := s.axis.flip
    -- prev.userData?.baseWidth || prev.geometry.parameters.width  (0 is falsy)
    let baseW := if prev.baseWidth = 0 then prev.width else prev.baseWidth
    let baseD := if prev.baseDepth = 0 then prev.depth else prev.baseDepth
    let super := s.superSize.active ∧ 0 < s.superSize.count
    let actualW := if super then baseW * (13/10) else baseW
    let actualD := if super then baseD * (13/10) else baseD
    let offset : ℚ := if coin then 12 else -12
    let dir : ℚ := if 0 < offset then -1 else 1
    let y := (s.stack.length : ℚ) * BLOCK_HEIGHT + BLOCK_HEIGHT / 2
    let pos : Vec3 :=
      match ax with
      | .x => ⟨offset, y, prev.pos.z⟩
      | .z => ⟨prev.pos.x, y, offset⟩
    { s with
      axis := ax
      direction := dir
      activeBlock := some
        { pos := pos, width := actualW, depth := actualD
          baseWidth := baseW, baseDepth := baseD }
      lastSpawnTime := now }

/-- Shallow embedding of `spawnRubble` (game.js).  `angVel` stands for the
three `Math.random()` draws of the angular velocity.  The free list is used
as a stack: `rubbleFree.pop()` takes the last element; when the free list is
empty the request is silently dropped (`idx === -1`). -/
def spawnRubble (s : GameState) (active prev : Block) (ax : Axis)
    (delta overlap : ℚ) (angVel : Vec3) : GameState :=
  let size := active.sizeOn ax
  let other := active.otherSizeOn ax
  let rSize := size - overlap
  match s.rubbleFree.getLast? with
  | none => s
  | some idx =>
    let rPos := active.pos.setAxis ax
      (prev.pos.getAxis ax + (size / 2 + rSize / 2) * mathSign delta)
    let rScale : Vec3 :=
      match ax with
      | .x => ⟨rSize, BLOCK_HEIGHT, other⟩
      | .z => ⟨other, BLOCK_HEIGHT, rSize⟩
    let slot : RubbleSlot :=
      { isActive := true, position := rPos, rotation := ⟨0, 0, 0⟩
        scale := rScale, velocity := ⟨0, -10, 0⟩, angularVelocity := angVel }
    { s with
      rubbleFree := s.rubbleFree.dropLast
      rubbleActive := s.rubbleActive ++ [idx]
      rubbleData := s.rubbleData.set idx slot }

/-- Shallow embedding of `gameOver` (game.js).  Persistence, ads, audio and
screen shake are external effects; of the visual feedback only `flash`
(`state.flash = Math.max(state.flash, 0.65)` in `triggerCrashFeedback`) is
kept in the model.  Note the function does not touch `activeBlock`. -/
def gameOver (s : GameState) : GameState :=
  { s with
    status := .GAMEOVER
    continuePending := false
    bestScore := if s.bestScore < s.score then s.score else s.bestScore
    bestStreak := if s.bestStreak < s.maxSessionCombo then s.maxSessionCombo else s.bestStreak
    flash := max s.flash (65/100) }

/-- The Super-Size decrement performed on both perfect and imperfect
placements in `placeBlock`. -/
def decSuperSize (p : SuperSize) : SuperSize :=
  if p.active ∧ 0 < p.count then
    let c := p.count - 1
    { active := if c = 0 then false else p.active, count := c }
  else p

/-- The list of candidate kinds in `awardPowerUp` (powerups.js). -/
def powerUpKindOf : Fin 4 → PowerKind
  | 0 => .slowMo
  | 1 => .safetyNet
  | 2 => .superSize
  | 3 => .resetSize

/-- Shallow embedding of `awardPowerUp` (powerups.js): put a randomly chosen
kind (`choice` models the `Math.random()` draw) into the first empty
inventory slot; no-op when the inventory is full. -/
def awardPowerUp (inv : List (Option PowerKind)) (choice : Fin 4) :
    List (Option PowerKind) :=
  match inv.findIdx? (fun o => o.isNone) with
  | none => inv
  | some i => inv.set i (some (powerUpKindOf choice))

/-- The mercy threshold of `placeBlock`: the difficulty's threshold while the
stack is at or below its mercy count, `0.15` afterwards. -/
def mercyThreshold (s : GameState) : ℚ :=
  if s.stack.length ≤ (DIFFICULTIES s.difficulty).mercy
  then (DIFFICULTIES s.difficulty).threshold else 3/20

/-- The position delta of `placeBlock` after mercy rounding: the raw offset
of the active block from the block below on the motion axis, rounded to `0`
when its magnitude is under the mercy threshold. -/
def roundedDelta (s : GameState) (active prev : Block) : ℚ :=
  let delta0 := active.pos.getAxis s.axis - prev.pos.getAxis s.axis
  if |delta0| < mercyThreshold s then 0 else delta0

/-- The overlap computed by `placeBlock`: size on the motion axis minus the
magnitude of the mercy-rounded delta. -/
def placementOverlap (s : GameState) (active prev : Block) : ℚ :=
  active.sizeOn s.axis - |roundedDelta s active prev|

/-- Shallow embedding of `placeBlock` (game.js), the placement state machine.
`now` models `performance.now()`; `coin`, `angVel` and `award` model the
random draws used by `spawnNewBlock`, `spawnRubble` and `awardPowerUp`.
UI rendering and audio are presentation effects and are dropped.  On an empty
stack the JS code would dereference `undefined`; that unreachable case is
modelled as leaving the state unchanged. -/
def placeBlock (s : GameState) (now : ℚ) (coin : Bool) (angVel : Vec3)
    (award : Fin 4) : GameState :=
  match s.activeBlock with
  | none => s
  | some active =>
    -- if (state.lastSpawnTime && performance.now() - state.lastSpawnTime < 2000) return
    if s.lastSpawnTime ≠ 0 ∧ now - s.lastSpawnTime < 2000 then s
    else
      match s.stack.getLast? with
      | none => s
      | some prev =>
        let diff := DIFFICULTIES s.difficulty
        let ax := s.axis
        let other := active.otherSizeOn ax
        let delta := roundedDelta s active prev
        let overlap := placementOverlap s active prev
        if overlap ≤ 1/20 then
          -- complete miss
          if s.safetyNet.active ∧ 0 < s.safetyNet.uses then
            let uses1 := s.safetyNet.uses - 1
            let net : SafetyNet :=
              { active := if uses1 = 0 then false else s.safetyNet.active, uses := uses1 }
            spawnNewBlock
              { s with safetyNet := net, combo := 0, flash := 3/10, activeBlock := none }
              now coin
          else gameOver s
        else
          let placed : Block × GameState :=
            if delta = 0 then
              -- perfect placement
              let active1 := { active with pos := active.pos.setAxis ax (prev.pos.getAxis ax) }
              let combo1 := s.combo + 1
              let maxCombo := if s.maxSessionCombo < combo1 then combo1 else s.maxSessionCombo
              let doAward := 5 ≤ combo1 ∧ combo1 % 5 = 0 ∧ s.lastComboMilestone < combo1
              (active1,
                { s with
                  combo := combo1
                  maxSessionCombo := maxCombo
                  flash := 1/2
                  lastComboMilestone := if doAward then combo1 else s.lastComboMilestone
                  powerUps := if doAward then awardPowerUp s.powerUps award else s.powerUps
                  superSize := decSuperSize s.superSize })
            else
              -- imperfect placement: cut the block
              let s2 := spawnRubble { s with combo := 0 } active prev ax delta overlap angVel
              let active1 : Block :=
                { pos := active.pos.setAxis ax (prev.pos.getAxis ax + delta / 2)
                  width := if ax = .x then overlap else other
                  depth := if ax = .x then other else overlap
                  baseWidth := if ax = .x then overlap else other
                  baseDepth := if ax = .x then other else overlap }
              (active1, { s2 with superSize := decSuperSize s2.superSize })
          let s1 := placed.2
          spawnNewBlock
            { s1 with
              stack := s1.stack ++ [placed.1]
              activeBlock := none
              score := s1.score + 1
              speed := min diff.max (s1.speed + diff.inc) }
            now coin

/-- Shallow embedding of `continueGame` (game.js): unconditionally counts the
continue, resumes play and grants the consolation safety net and slow-mo.
The DOM notification is presentation. -/
def continueGame (s : GameState) : GameState :=
  { s with
    continuesUsed := s.continuesUsed + 1
    status := .PLAYING
    safetyNet := { active := true, uses := 1 }
    slowMo := { active := true, duration := 5 } }

/-- A continue attempt as it is reachable through the UI: the game-over
screen (ui.js `renderGameOver`) renders the continue button only when
`state.continuesUsed < 1`, and only the game-over screen offers it; pressing
it runs `continueGame`.  Any other attempt has no handler and is a no-op. -/
def attemptContinue (s : GameState) : GameState :=
  if s.status = .GAMEOVER ∧ s.continuesUsed < 1 then continueGame s else s

/-- Shallow embedding of `cleanup` (game.js).  Mesh/material disposal is a
renderer effect; the state effect is clearing the stack and active block and,
when the engine exists and the pool was populated, resetting the whole rubble
pool.  The JS loop runs `i` from `0` to `MAX_RUBBLE - 1` over `rubbleData`;
on the reachable pool shapes (`rubbleData.length` is `0` or `MAX_RUBBLE`)
this equals deactivating every slot, which is how it is written here. -/
def cleanup (s : GameState) : GameState :=
  if s.hasScene = false then
    { s with stack := [], activeBlock := none }
  else
    let s1 := { s with stack := [], activeBlock := none }
    if s.rubbleData.length ≠ 0 then
      { s1 with
        rubbleData := s.rubbleData.map fun r => { r with isActive := false }
        rubbleFree := List.range MAX_RUBBLE
        rubbleActive := [] }
    else s1

/-- `createFoundation` (graphics module): push the 4×1×4 foundation block. -/
def createFoundation (s : GameState) : GameState :=
  { s with
    stack := s.stack ++
      [{ pos := ⟨0, BLOCK_HEIGHT / 2, 0⟩
         width := INITIAL_SIZE, depth := INITIAL_SIZE
         baseWidth := INITIAL_SIZE, baseDepth := INITIAL_SIZE }] }

/-- Shallow embedding of `startGame` (game.js).  Audio init, the debug
background flash, theme fallback and camera resets are presentation. -/
def startGame (s : GameState) (now : ℚ) (coin : Bool) : GameState :=
  let s1 := cleanup { s with continueUsed := false, continuePending := false }
  let d := DIFFICULTIES s.difficulty
  let s2 :=
    { s1 with
      status := Status.PLAYING
      score := 0
      combo := 0
      maxSessionCombo := 0
      speed := d.initial
      axis := Axis.x
      powerUps := [none, none, none]
      slowMo := ⟨false, 0⟩
      safetyNet := ⟨false, 0⟩
      superSize := ⟨false, 0⟩
      lastComboMilestone := 0 }
  spawnNewBlock (createFoundation s2) now coin

/-- Shallow embedding of `backToMenu` (game.js). -/
def backToMenu (s : GameState) : GameState :=
  let s1 :=
    if s.status = Status.GAMEOVER then
      let c := cleanup s
      { c with stack := [], activeBlock := none }
    else s
  { s1 with status := Status.START }

/-- Shallow embedding of `resumeGame` (game.js). -/
def resumeGame (s : GameState) (now : ℚ) : GameState :=
  if s.status = Status.GAMEOVER then s
  else { s with status := Status.PLAYING, lastTime := now }

/-- Shallow embedding of `pauseGame` (game.js). -/
def pauseGame (s : GameState) : GameState :=
  if s.status = Status.PLAYING then { s with status := Status.PAUSED } else s

/-- Shallow embedding of `resetGameState` (state.js).  Note that it sets
`rubbleActive = []` without returning the indices to the free list, and
leaves `rubbleData`/`rubbleFree` alone. -/
def resetGameState (s : GameState) : GameState :=
  { s with
    score := 0
    combo := 0
    maxSessionCombo := 0
    stack := []
    activeBlock := none
    rubbleActive := []
    powerUps := [none, none, none]
    slowMo := ⟨false, 0⟩
    safetyNet := ⟨false, 0⟩
    superSize := ⟨false, 0⟩
    lastComboMilestone := 0
    continuesUsed := 0
    flash := 0 }

/-- A fresh rubble slot as initialised by `initEngine` (graphics module). -/
def initRubbleSlot : RubbleSlot where
  isActive := false
  position := ⟨0, -500, 0⟩
  rotation := ⟨0, 0, 0⟩
  scale := ⟨1, 1, 1⟩
  velocity := ⟨0, 0, 0⟩
  angularVelocity := ⟨0, 0, 0⟩

/-- The state effect of `initEngine` (graphics module): the scene comes to
exist, the rubble pool is built with all `MAX_RUBBLE` slots free, and the
foundation is created. -/
def initEngine (s : GameState) : GameState :=
  createFoundation
    { s with
      hasScene := true
      rubbleFree := List.range MAX_RUBBLE
      rubbleActive := []
      rubbleData := List.replicate MAX_RUBBLE initRubbleSlot }

/-- Shallow embedding of `updatePowerUpTimers` (powerups.js). -/
def updatePowerUpTimers (s : GameState) (dt : ℚ) : GameState :=
  if s.slowMo.active ∧ 0 < s.slowMo.duration then
    let d := s.slowMo.duration - dt
    if d ≤ 0 then { s with slowMo := ⟨false, 0⟩ }
    else { s with slowMo := { s.slowMo with duration := d } }
  else s

/-- The unclamped next coordinate of the active block on the motion axis:
`position[axis] + direction * speed * speedMultiplier * (dt * 60)`, with the
slow-mo multiplier read after the power-up timers have been updated. -/
def rawNextPos (s : GameState) (b : Block) (dt : ℚ) : ℚ :=
  let s0 := updatePowerUpTimers s dt
  let mult : ℚ := if s0.slowMo.active ∧ 0 < s0.slowMo.duration then 1/2 else 1
  b.pos.getAxis s0.axis + s0.direction * s0.speed * mult * (dt * 60)

/-- Shallow embedding of the active-block movement step of the animation
loop (main-vr.js, the `state.status === 'PLAYING' && state.activeBlock`
block): advance the block on the motion axis and bounce it at ±13. -/
def moveActiveBlock (s : GameState) (dt : ℚ) : GameState :=
  if s.status = Status.PLAYING then
    match s.activeBlock with
    | none => s
    | some b =>
      let s0 := updatePowerUpTimers s dt
      let p1 := rawNextPos s b dt
      if 13 < |p1| then
        { s0 with
          direction := -s0.direction
          activeBlock := some { b with pos := b.pos.setAxis s0.axis (13 * mathSign p1) } }
      else
        { s0 with activeBlock := some { b with pos := b.pos.setAxis s0.axis p1 } }
  else s

/-- One Euler step of the rubble kinematics (main-vr.js rubble loop body). -/
def integrateSlot (r : RubbleSlot) (dt : ℚ) : RubbleSlot :=
  { r with
    position := { r.position with y := r.position.y + r.velocity.y * (dt * 5) }
    velocity := { r.velocity with y := r.velocity.y - 25 * dt }
    rotation :=
      ⟨r.rotation.x + r.angularVelocity.x * dt,
       r.rotation.y + r.angularVelocity.y * dt,
       r.rotation.z + r.angularVelocity.z * dt⟩ }

/-- The swap-removal used by the rubble loop: `pop()` the last element and,
if the removed position `a` is still inside the shortened list, overwrite
position `a` with the popped element. -/
def swapRemove (l : List ℕ) (a : ℕ) : List ℕ :=
  let lst := l.getLast?.getD 0
  let l1 := l.dropLast
  if a < l1.length then l1.set a lst else l1

/-- The reverse `for` loop over `rubbleActive` in the animation loop
(main-vr.js): the argument `a + 1` means the iteration with index `a` is
about to run.  Reads out of range (impossible on the reachable pool shapes,
where every active index is below `rubbleData.length`) default to a fresh
slot. -/
def rubbleTickAux (dt : ℚ) :
    ℕ → List RubbleSlot → List ℕ → List ℕ → List RubbleSlot × List ℕ × List ℕ
  | 0, data, free, active => (data, free, active)
  | a + 1, data, free, active =>
    let i := active.getD a 0
    let r := data.getD i initRubbleSlot
    if r.isActive = false then
      rubbleTickAux dt a data free (swapRemove active a)
    else
      let r1 := integrateSlot r dt
      if r1.position.y < -120 then
        rubbleTickAux dt a (data.set i { r1 with isActive := false })
          (free ++ [i]) (swapRemove active a)
      else
        rubbleTickAux dt a (data.set i r1) free active

/-- The rubble-physics portion of one animation frame. -/
def rubbleTick (s : GameState) (dt : ℚ) : GameState :=
  let out := rubbleTickAux dt s.rubbleActive.length s.rubbleData s.rubbleFree s.rubbleActive
  { s with rubbleData := out.1, rubbleFree := out.2.1, rubbleActive := out.2.2 }

/-- The rubble-pool invariant: the pool has exactly `MAX_RUBBLE` slots, the
free and active lists together are a permutation of all slot indices (hence
disjoint, duplicate-free, and of total length `MAX_RUBBLE`), and the
`isActive` flags agree with active-list membership. -/
def PoolInv (data : List RubbleSlot) (free active : List ℕ) : Prop :=
  data.length = MAX_RUBBLE ∧
  (free ++ active).Perm (List.range MAX_RUBBLE) ∧
  (∀ i ∈ free, (data.getD i initRubbleSlot).isActive = false) ∧
  (∀ i ∈ active, (data.getD i initRubbleSlot).isActive = true)

/-- The pool invariant of a game state. -/
def GameState.poolInv (s : GameState) : Prop :=
  PoolInv s.rubbleData s.rubbleFree s.rubbleActive

/-! ## The session transition system

The state-mutating entry points reachable through the UI and the animation
loop.  A drop (`placeBlock`) is gated by `status === 'PLAYING'` in both input
handlers (main-vr.js `handleVRInput` / `handleInput`); a continue attempt is
gated by the game-over screen, which renders the continue button only while
`continuesUsed < 1` (ui.js `renderGameOver`).  The remaining handlers
(difficulty/theme selection, mute, power-up activation, quality adaptation)
write none of the fields the session-level invariants talk about. -/

inductive SessionOp
  | engineInit
  | start (now : ℚ) (coin : Bool)
  | drop (now : ℚ) (coin : Bool) (angVel : Vec3) (award : Fin 4)
  | frame (dt : ℚ)
  | pause
  | resume (now : ℚ)
  | menu
  | tryContinue

/-- One UI/loop-level transition. -/
def sessionStep : SessionOp → GameState → GameState
  | .engineInit, s => initEngine s
  | .start now coin, s => startGame s now coin
  | .drop now coin angVel award, s =>
    if s.status = Status.PLAYING then placeBlock s now coin angVel award else s
  | .frame dt, s => rubbleTick (moveActiveBlock s dt) dt
  | .pause, s => pauseGame s
  | .resume now, s => resumeGame s now
  | .menu, s => backToMenu s
  | .tryContinue, s => attemptContinue s

/-- States reachable from the state.js initial state through the UI and the
animation loop. -/
inductive Reach : GameState → Prop
  | init : Reach initialState
  | step (op : SessionOp) {s : GameState} : Reach s → Reach (sessionStep op s)

/-! ## Concrete states used by witnesses and counterexamples -/

/-- A full-size block resting flat at height `y`, centred on the origin. -/
def flatBlock (y : ℚ) : Block where
  pos := ⟨0, y, 0⟩
  width := 4
  depth := 4
  baseWidth := 4
  baseDepth := 4

/-- A tower of `n` full-size perfectly aligned blocks. -/
def towerOf (n : ℕ) : List Block :=
  (List.range n).map fun i => flatBlock ((i : ℚ) + 1/2)

/-- A mid-session playing state: engine initialised, a 3-block tower, pool
fully free, the motion axis `x`. -/
def basePlaying : GameState :=
  { initialState with
    status := .PLAYING
    hasScene := true
    stack := towerOf 3
    score := 3
    lastSpawnTime := 1
    rubbleData := List.replicate MAX_RUBBLE initRubbleSlot
    rubbleFree := List.range MAX_RUBBLE
    rubbleActive := [] }

/-- An active block hovering over the tower with raw offset `dx` on axis
`x`. -/
def hoverBlock (dx : ℚ) : Block where
  pos := ⟨dx, 7/2, 0⟩
  width := 4
  depth := 4
  baseWidth := 4
  baseDepth := 4

/-- A rubble slot marked active (for exhausted-pool scenarios). -/
def busyRubbleSlot : RubbleSlot :=
  { initRubbleSlot with isActive := true }

/-- A playing state like `basePlaying` but with the rubble pool left empty
(used where the pool is irrelevant, to keep concrete computations small). -/
def leanPlaying : GameState :=
  { initialState with
    status := .PLAYING
    stack := towerOf 3
    score := 3
    lastSpawnTime := 1 }

/-- The C6 scenario state: difficulty medium, 3-block stack, combo 0, active
block whose raw delta on axis `x` is `0.2`. -/
def stateC6 : GameState := { leanPlaying with activeBlock := some (hoverBlock (1/5)) }

/-- A playing state about to suffer a complete miss (raw delta 8 on a size-4
block), with no safety net. -/
def stateMiss : GameState := { leanPlaying with activeBlock := some (hoverBlock 8) }

/-- A playing state about to suffer a complete miss while a safety net with
one use is active. -/
def stateMissNet : GameState :=
  { leanPlaying with activeBlock := some (hoverBlock 8), safetyNet := ⟨true, 1⟩ }

/-- A playing state about to make a partial placement (raw delta 1): the
pool is fully free. -/
def stateCut : GameState := { basePlaying with activeBlock := some (hoverBlock 1) }

/-- The same partial placement with the rubble pool exhausted: the free list
is empty and all 80 slots are active. -/
def stateCutFull : GameState :=
  { basePlaying with
    activeBlock := some (hoverBlock 1)
    rubbleFree := []
    rubbleActive := List.range MAX_RUBBLE
    rubbleData := List.replicate MAX_RUBBLE busyRubbleSlot }

/-- A state with one active rubble slot recorded in the active list. -/
def stateOneRubble : GameState := { leanPlaying with rubbleActive := [0] }

/-- A playing state whose active block has spawn timestamp `0` (the falsy
value that disables the grace-period check) and raw delta `0`. -/
def stateZeroSpawn : GameState :=
  { leanPlaying with lastSpawnTime := 0, activeBlock := some (hoverBlock 0) }

/-- A playing state with a centred active block and speed 1, used to watch
the ±13 bounce. -/
def stateFastBlock : GameState :=
  { leanPlaying with activeBlock := some (hoverBlock 0), speed := 1 }

/-- A game-over state in which the one continue of the session has already
been counted. -/
def stateContinueSpent : GameState :=
  { initialState with status := .GAMEOVER, continuesUsed := 1 }

/-! ## Helper lemmas -/

theorem Vec3.getAxis_setAxis (v : Vec3) (a : Axis) (q : ℚ) :
    (v.setAxis a q).getAxis a = q := by
  cases a <;> rfl

theorem spawnNewBlock_continuesUsed (s : GameState) (now : ℚ) (coin : Bool) :
    (spawnNewBlock s now coin).continuesUsed = s.continuesUsed := by
  unfold spawnNewBlock; split <;> rfl

theorem spawnRubble_continuesUsed (s : GameState) (a p : Block) (ax : Axis)
    (delta overlap : ℚ) (angVel : Vec3) :
    (spawnRubble s a p ax delta overlap angVel).continuesUsed = s.continuesUsed := by
  unfold spawnRubble; split <;> rfl

theorem placeBlock_continuesUsed (s : GameState) (now : ℚ) (coin : Bool)
    (angVel : Vec3) (award : Fin 4) :
    (placeBlock s now coin angVel award).continuesUsed = s.continuesUsed := by
  unfold placeBlock
  repeat' split
  all_goals
    simp [spawnNewBlock_continuesUsed, spawnRubble_continuesUsed, gameOver,
      apply_ite GameState.continuesUsed, apply_ite (Prod.snd (α := Block) (β := GameState))]

/-- `spawnNewBlock` changes only axis/direction/activeBlock/lastSpawnTime:
the session counters, the stack and the power-up records are untouched. -/
theorem spawnNewBlock_frame (s : GameState) (now : ℚ) (coin : Bool) :
    (spawnNewBlock s now coin).status = s.status ∧
    (spawnNewBlock s now coin).stack = s.stack ∧
    (spawnNewBlock s now coin).combo = s.combo ∧
    (spawnNewBlock s now coin).score = s.score ∧
    (spawnNewBlock s now coin).safetyNet = s.safetyNet := by
  unfold spawnNewBlock; split <;> simp

/-- When the stack is non-empty, `spawnNewBlock` creates an active block one
level above the stack top. -/
theorem spawnNewBlock_active (s : GameState) (now : ℚ) (coin : Bool)
    (prev : Block) (hprev : s.stack.getLast? = some prev) :
    ∃ b, (spawnNewBlock s now coin).activeBlock = some b ∧
      b.pos.y = (s.stack.length : ℚ) * BLOCK_HEIGHT + BLOCK_HEIGHT / 2 := by
  unfold spawnNewBlock
  rw [hprev]
  cases s.axis <;> simp [Axis.flip]

/-! ## Claim C8: frame effect of resetGameState -/

/-- **C8, counterexample.**  The claim states that `resetGameState` leaves
every rubble-pool field unchanged.  On a state with one recorded active
rubble slot, `resetGameState` clears the active list, so the pool is not
left unchanged. -/
theorem resetGameState_clears_active_cex :
    stateOneRubble.rubbleActive = [0] ∧
    (resetGameState stateOneRubble).rubbleActive ≠ stateOneRubble.rubbleActive := by
  decide

/-- **C8, amended.**  `resetGameState` clears score, combo, max session
combo, stack, active block, power-up inventory and active effects, the combo
milestone, the continue counter — and also the rubble *active list*; the
per-slot rubble data and the free list are left unchanged. -/
theorem resetGameState_frame (s : GameState) :
    (resetGameState s).score = 0 ∧
    (resetGameState s).combo = 0 ∧
    (resetGameState s).maxSessionCombo = 0 ∧
    (resetGameState s).stack = [] ∧
    (resetGameState s).activeBlock = none ∧
    (resetGameState s).powerUps = [none, none, none] ∧
    (resetGameState s).slowMo = ⟨false, 0⟩ ∧
    (resetGameState s).safetyNet = ⟨false, 0⟩ ∧
    (resetGameState s).superSize = ⟨false, 0⟩ ∧
    (resetGameState s).lastComboMilestone = 0 ∧
    (resetGameState s).continuesUsed = 0 ∧
    (resetGameState s).rubbleData = s.rubbleData ∧
    (resetGameState s).rubbleFree = s.rubbleFree ∧
    (resetGameState s).rubbleActive = [] := by
  repeat' constructor

/-! ## Claim C9: placeBlock precondition no-ops -/

/-- **C9, counterexample.**  The claim states that `placeBlock` is a no-op
whenever less than 2 seconds have elapsed since the active block's spawn
timestamp.  But the grace-period guard is
`if (state.lastSpawnTime && ...)`: a spawn timestamp of `0` is falsy and
disables the check.  On `stateZeroSpawn` (spawn timestamp `0`, current time
`1000`, so only 1 second has elapsed) `placeBlock` goes on to mutate the
state. -/
theorem placeBlock_grace_skipped_cex :
    stateZeroSpawn.activeBlock.isSome = true ∧
    (1000 : ℚ) - stateZeroSpawn.lastSpawnTime < 2000 ∧
    (placeBlock stateZeroSpawn 1000 true ⟨0, 0, 0⟩ 0).score = stateZeroSpawn.score + 1 ∧
    placeBlock stateZeroSpawn 1000 true ⟨0, 0, 0⟩ 0 ≠ stateZeroSpawn := by
  with_unfolding_all decide

/-- **C9, amended.**  `placeBlock` returns with the whole (modelled) game
state unchanged and no failure when the active block is empty, and likewise
when the spawn timestamp is *nonzero* and less than 2 seconds have elapsed
since it (a zero timestamp disables the grace check). -/
theorem placeBlock_precondition_noop (s : GameState) (now : ℚ) (coin : Bool)
    (angVel : Vec3) (award : Fin 4) :
    (s.activeBlock = none → placeBlock s now coin angVel award = s) ∧
    (s.lastSpawnTime ≠ 0 → now - s.lastSpawnTime < 2000 →
      placeBlock s now coin angVel award = s) := by
  constructor
  · intro h
    unfold placeBlock
    rw [h]
  · intro h1 h2
    unfold placeBlock
    cases hact : s.activeBlock with
    | none => rfl
    | some a => simp [h1, h2]

/-- **C9, witness.**  The no-op theorem applied at concrete states: one with
no active block, and the C6 state (spawn timestamp 1) dropped at time 100,
inside the grace window. -/
theorem placeBlock_precondition_noop_witness :
    placeBlock leanPlaying 0 true ⟨0, 0, 0⟩ 0 = leanPlaying ∧
    placeBlock stateC6 100 true ⟨0, 0, 0⟩ 0 = stateC6 :=
  ⟨(placeBlock_precondition_noop leanPlaying 0 true ⟨0, 0, 0⟩ 0).1 rfl,
   (placeBlock_precondition_noop stateC6 100 true ⟨0, 0, 0⟩ 0).2
     (by with_unfolding_all decide) (by with_unfolding_all decide)⟩

/-! ## Claim C10: the active block oscillates inside [-13, 13] -/

theorem updatePowerUpTimers_frame (s : GameState) (dt : ℚ) :
    (updatePowerUpTimers s dt).axis = s.axis ∧
    (updatePowerUpTimers s dt).direction = s.direction ∧
    (updatePowerUpTimers s dt).speed = s.speed ∧
    (updatePowerUpTimers s dt).status = s.status := by
  unfold updatePowerUpTimers
  split_ifs <;>
    simp [apply_ite GameState.axis, apply_ite GameState.direction,
      apply_ite GameState.speed, apply_ite GameState.status]

theorem abs_thirteen_mathSign (q : ℚ) : |13 * mathSign q| ≤ 13 := by
  unfold mathSign
  split_ifs <;> norm_num

/-- **C10.**  In status Playing with an active block, the per-frame movement
update leaves the block's coordinate on the motion axis with absolute value
at most 13; whenever the unclamped update `rawNextPos` would exceed 13 in
magnitude, the coordinate is clamped to `13 * sign` and the motion direction
is negated, and otherwise the raw coordinate is kept and the direction is
unchanged — so the block keeps oscillating inside `[-13, 13]`. -/
theorem moveActiveBlock_clamps (s : GameState) (dt : ℚ) (b : Block)
    (hst : s.status = Status.PLAYING) (hab : s.activeBlock = some b) :
    ∃ b2, (moveActiveBlock s dt).activeBlock = some b2 ∧
      |b2.pos.getAxis s.axis| ≤ 13 ∧
      (13 < |rawNextPos s b dt| →
        b2.pos.getAxis s.axis = 13 * mathSign (rawNextPos s b dt) ∧
        (moveActiveBlock s dt).direction = -s.direction) ∧
      (|rawNextPos s b dt| ≤ 13 →
        b2.pos.getAxis s.axis = rawNextPos s b dt ∧
        (moveActiveBlock s dt).direction = s.direction) := by
  have hax : (updatePowerUpTimers s dt).axis = s.axis := (updatePowerUpTimers_frame s dt).1
  have hdir : (updatePowerUpTimers s dt).direction = s.direction :=
    (updatePowerUpTimers_frame s dt).2.1
  unfold moveActiveBlock
  rw [if_pos hst, hab]
  by_cases h13 : 13 < |rawNextPos s b dt|
  · refine ⟨{ b with
        pos := b.pos.setAxis (updatePowerUpTimers s dt).axis (13 * mathSign (rawNextPos s b dt)) },
      ?_, ?_, ?_, ?_⟩
    · simp [h13]
    · simp only [hax, Vec3.getAxis_setAxis]
      exact abs_thirteen_mathSign _
    · intro _
      simp [h13, hax, hdir, Vec3.getAxis_setAxis]
    · intro hle
      exact absurd h13 (not_lt.mpr hle)
  · refine ⟨{ b with
        pos := b.pos.setAxis (updatePowerUpTimers s dt).axis (rawNextPos s b dt) },
      ?_, ?_, ?_, ?_⟩
    · simp [h13]
    · simp only [hax, Vec3.getAxis_setAxis]
      exact not_lt.mp h13
    · intro h
      exact absurd h h13
    · intro _
      simp [h13, hax, hdir, Vec3.getAxis_setAxis]

/-- **C10, witness.**  The clamp theorem applied at a concrete playing state
whose active block sits at the origin and moves with speed 1 for a 1-second
frame: the raw update 60 exceeds 13 and is clamped. -/
theorem moveActiveBlock_clamps_witness :
    ∃ b2, (moveActiveBlock stateFastBlock 1).activeBlock = some b2 ∧
      |b2.pos.getAxis stateFastBlock.axis| ≤ 13 ∧
      (13 < |rawNextPos stateFastBlock (hoverBlock 0) 1| →
        b2.pos.getAxis stateFastBlock.axis =
          13 * mathSign (rawNextPos stateFastBlock (hoverBlock 0) 1) ∧
        (moveActiveBlock stateFastBlock 1).direction = -stateFastBlock.direction) ∧
      (|rawNextPos stateFastBlock (hoverBlock 0) 1| ≤ 13 →
        b2.pos.getAxis stateFastBlock.axis = rawNextPos stateFastBlock (hoverBlock 0) 1 ∧
        (moveActiveBlock stateFastBlock 1).direction = stateFastBlock.direction) :=
  moveActiveBlock_clamps stateFastBlock 1 (hoverBlock 0) rfl rfl

/-! ## Claim C6: the medium-difficulty mercy scenario -/

/-- **C6.**  At difficulty medium with a 3-block stack (at or below the
mercy count 5), combo 0 and an active block whose raw delta on axis `x`
is `0.2`: the mercy threshold is `0.35`, the delta rounds to `0` (perfect
placement), the placed block is snapped onto the block below (both end at
`x = 0`), and afterwards the combo is 1 and the score is 4. -/
theorem placeBlock_mercy_scenario :
    stateC6.axis = Axis.x ∧
    stateC6.stack.length = 3 ∧ stateC6.combo = 0 ∧ stateC6.difficulty = DiffKey.medium ∧
    (hoverBlock (1/5)).pos.getAxis Axis.x - (flatBlock (5/2)).pos.getAxis Axis.x = 1/5 ∧
    stateC6.stack.getLast? = some (flatBlock (5/2)) ∧
    mercyThreshold stateC6 = 35/100 ∧
    roundedDelta stateC6 (hoverBlock (1/5)) (flatBlock (5/2)) = 0 ∧
    (placeBlock stateC6 5000 true ⟨0, 0, 0⟩ 0).combo = 1 ∧
    (placeBlock stateC6 5000 true ⟨0, 0, 0⟩ 0).score = 4 ∧
    (placeBlock stateC6 5000 true ⟨0, 0, 0⟩ 0).stack.getLast? =
      some { pos := ⟨0, 7/2, 0⟩, width := 4, depth := 4, baseWidth := 4, baseDepth := 4 } := by
  with_unfolding_all decide

/-! ## Claim C1: a miss without safety net ends the session -/

/-- **C1, counterexample.**  The claim states that on a complete miss with
no active safety net the status transitions to GameOver *and `activeBlock`
becomes empty*.  On the concrete miss state the status does transition, but
`placeBlock`/`gameOver` never clear `activeBlock`: it still holds the missed
block afterwards. -/
theorem placeBlock_miss_keeps_active_cex :
    stateMiss.status = Status.PLAYING ∧
    stateMiss.safetyNet.active = false ∧
    (placeBlock stateMiss 5000 true ⟨0, 0, 0⟩ 0).status = Status.GAMEOVER ∧
    (placeBlock stateMiss 5000 true ⟨0, 0, 0⟩ 0).activeBlock = some (hoverBlock 8) := by
  with_unfolding_all decide

/-- **C1, amended.**  On a placement in status Playing, past the grace
period, with computed overlap ≤ 0.05 and no active safety net with remaining
uses, `placeBlock` runs `gameOver`: the status transitions Playing→GameOver,
and `activeBlock` is left *unchanged* (still holding the missed block), not
cleared. -/
theorem placeBlock_miss_game_over (s : GameState) (now : ℚ) (coin : Bool)
    (angVel : Vec3) (award : Fin 4) (a prev : Block)
    (hact : s.activeBlock = some a)
    (hst : s.status = Status.PLAYING)
    (hgrace : ¬(s.lastSpawnTime ≠ 0 ∧ now - s.lastSpawnTime < 2000))
    (hprev : s.stack.getLast? = some prev)
    (hmiss : placementOverlap s a prev ≤ 1/20)
    (hnet : ¬(s.safetyNet.active = true ∧ 0 < s.safetyNet.uses)) :
    placeBlock s now coin angVel award = gameOver s ∧
    (placeBlock s now coin angVel award).status = Status.GAMEOVER ∧
    (placeBlock s now coin angVel award).activeBlock = s.activeBlock := by
  have h1 : placeBlock s now coin angVel award = gameOver s := by
    unfold placeBlock
    simp only [hact, if_neg hgrace, hprev, if_pos hmiss, if_neg hnet]
  refine ⟨h1, ?_, ?_⟩ <;> rw [h1] <;> rfl

/-- **C1, witness.**  The amended theorem applied at the concrete miss
state. -/
theorem placeBlock_miss_game_over_witness :
    placeBlock stateMiss 5000 true ⟨0, 0, 0⟩ 0 = gameOver stateMiss ∧
    (placeBlock stateMiss 5000 true ⟨0, 0, 0⟩ 0).status = Status.GAMEOVER ∧
    (placeBlock stateMiss 5000 true ⟨0, 0, 0⟩ 0).activeBlock = stateMiss.activeBlock :=
  placeBlock_miss_game_over stateMiss 5000 true ⟨0, 0, 0⟩ 0 (hoverBlock 8) (flatBlock (5/2))
    rfl rfl (by with_unfolding_all decide) (by with_unfolding_all decide)
    (by with_unfolding_all decide) (by with_unfolding_all decide)

/-! ## Claim C2: a miss absorbed by the safety net -/

/-- **C2.**  On a complete miss while the safety net is active with uses
> 0: the status remains Playing, the combo is set to 0, the safety-net uses
decrement by exactly one (the effect deactivating when the uses reach 0),
the stack is unchanged, and a new active block spawns one block height above
the unchanged top of stack. -/
theorem placeBlock_safety_net_spec (s : GameState) (now : ℚ) (coin : Bool)
    (angVel : Vec3) (award : Fin 4) (a prev : Block)
    (hact : s.activeBlock = some a)
    (hst : s.status = Status.PLAYING)
    (hgrace : ¬(s.lastSpawnTime ≠ 0 ∧ now - s.lastSpawnTime < 2000))
    (hprev : s.stack.getLast? = some prev)
    (hmiss : placementOverlap s a prev ≤ 1/20)
    (hnet : s.safetyNet.active = true) (huses : 0 < s.safetyNet.uses)
    (htop : prev.pos.y = (s.stack.length : ℚ) - 1 + 1/2) :
    (placeBlock s now coin angVel award).status = Status.PLAYING ∧
    (placeBlock s now coin angVel award).combo = 0 ∧
    (placeBlock s now coin angVel award).safetyNet.uses = s.safetyNet.uses - 1 ∧
    ((placeBlock s now coin angVel award).safetyNet.uses = 0 →
      (placeBlock s now coin angVel award).safetyNet.active = false) ∧
    (placeBlock s now coin angVel award).stack = s.stack ∧
    ∃ b, (placeBlock s now coin angVel award).activeBlock = some b ∧
      b.pos.y = prev.pos.y + BLOCK_HEIGHT := by
  have hred : placeBlock s now coin angVel award =
      spawnNewBlock
        { s with
          safetyNet :=
            { active := if s.safetyNet.uses - 1 = 0 then false else s.safetyNet.active
              uses := s.safetyNet.uses - 1 }
          combo := 0
          flash := 3/10
          activeBlock := none } now coin := by
    unfold placeBlock
    simp only [hact, if_neg hgrace, hprev, if_pos hmiss, if_pos (And.intro hnet huses)]
  rw [hred]
  have hframe := spawnNewBlock_frame
    { s with
      safetyNet :=
        { active := if s.safetyNet.uses - 1 = 0 then false else s.safetyNet.active
          uses := s.safetyNet.uses - 1 }
      combo := 0
      flash := 3/10
      activeBlock := none } now coin
  obtain ⟨hfst, hfstk, hfc, -, hfn⟩ := hframe
  refine ⟨?_, ?_, ?_, ?_, ?_, ?_⟩
  · rw [hfst]; exact hst
  · rw [hfc]
  · rw [hfn]
  · rw [hfn]
    intro h0
    have h0' : s.safetyNet.uses - 1 = 0 := h0
    show (if s.safetyNet.uses - 1 = 0 then false else s.safetyNet.active) = false
    rw [if_pos h0']
  · rw [hfstk]
  · obtain ⟨b, hb, hy⟩ := spawnNewBlock_active
      { s with
        safetyNet :=
          { active := if s.safetyNet.uses - 1 = 0 then false else s.safetyNet.active
            uses := s.safetyNet.uses - 1 }
        combo := 0
        flash := 3/10
        activeBlock := none } now coin prev hprev
    refine ⟨b, hb, ?_⟩
    have hy' : b.pos.y = (s.stack.length : ℚ) * BLOCK_HEIGHT + BLOCK_HEIGHT / 2 := hy
    rw [hy', htop]
    unfold BLOCK_HEIGHT
    ring

/-- **C2, witness.**  The safety-net theorem applied at the concrete miss
state with an active one-use safety net. -/
theorem placeBlock_safety_net_spec_witness :
    (placeBlock stateMissNet 5000 true ⟨0, 0, 0⟩ 0).status = Status.PLAYING ∧
    (placeBlock stateMissNet 5000 true ⟨0, 0, 0⟩ 0).combo = 0 ∧
    (placeBlock stateMissNet 5000 true ⟨0, 0, 0⟩ 0).safetyNet.uses =
      stateMissNet.safetyNet.uses - 1 ∧
    ((placeBlock stateMissNet 5000 true ⟨0, 0, 0⟩ 0).safetyNet.uses = 0 →
      (placeBlock stateMissNet 5000 true ⟨0, 0, 0⟩ 0).safetyNet.active = false) ∧
    (placeBlock stateMissNet 5000 true ⟨0, 0, 0⟩ 0).stack = stateMissNet.stack ∧
    ∃ b, (placeBlock stateMissNet 5000 true ⟨0, 0, 0⟩ 0).activeBlock = some b ∧
      b.pos.y = (flatBlock (5/2)).pos.y + BLOCK_HEIGHT :=
  placeBlock_safety_net_spec stateMissNet 5000 true ⟨0, 0, 0⟩ 0 (hoverBlock 8)
    (flatBlock (5/2)) rfl rfl (by with_unfolding_all decide)
    (by with_unfolding_all decide) (by with_unfolding_all decide) rfl
    (by with_unfolding_all decide) (by with_unfolding_all decide)

/-! ## Claim C7: cleanup is idempotent and restores the pool -/

/-- **C7.**  `cleanup` is idempotent (the state after two calls is identical
to the state after one), its result always has an empty stack and no active
block (also when no scene exists, where it is safe and leaves the pool
alone), and on an initialised engine (scene present, pool populated with the
80 slots) a single call leaves all 80 slots inactive and on the free list
with the active list empty. -/
theorem cleanup_idempotent_spec (s : GameState) :
    cleanup (cleanup s) = cleanup s ∧
    (cleanup s).stack = [] ∧
    (cleanup s).activeBlock = none ∧
    (s.hasScene = true → s.rubbleData.length = MAX_RUBBLE →
      (cleanup s).rubbleFree = List.range MAX_RUBBLE ∧
      (cleanup s).rubbleActive = [] ∧
      ∀ r ∈ (cleanup s).rubbleData, r.isActive = false) := by
  cases hsc : s.hasScene with
  | false =>
    refine ⟨?_, ?_, ?_, ?_⟩
    · simp [cleanup, hsc]
    · simp [cleanup, hsc]
    · simp [cleanup, hsc]
    · intro h; exact Bool.noConfusion h
  | true =>
    by_cases hd : s.rubbleData.length = 0
    · refine ⟨?_, ?_, ?_, ?_⟩
      · simp [cleanup, hsc, hd]
      · simp [cleanup, hsc, hd]
      · simp [cleanup, hsc, hd]
      · intro _ h80
        rw [hd] at h80
        exact absurd h80.symm (by norm_num [MAX_RUBBLE])
    · refine ⟨?_, ?_, ?_, ?_⟩
      · have hmm : ∀ l : List RubbleSlot,
            (l.map fun r => { r with isActive := false }).map
              (fun r => { r with isActive := false }) =
            l.map fun r => { r with isActive := false } := by
          intro l
          rw [List.map_map]
          rfl
        simp [cleanup, hsc, hd, hmm]
      · simp [cleanup, hsc, hd]
      · simp [cleanup, hsc, hd]
      · intro _ _
        refine ⟨by simp [cleanup, hsc, hd], by simp [cleanup, hsc, hd], ?_⟩
        intro r hr
        have hdata : (cleanup s).rubbleData =
            s.rubbleData.map fun r => { r with isActive := false } := by
          simp [cleanup, hsc, hd]
        rw [hdata] at hr
        rcases List.mem_map.mp hr with ⟨r0, -, rfl⟩
        rfl

/-- **C7, witness.**  The idempotence/pool theorem applied at the concrete
mid-session state (scene present, 80-slot pool). -/
theorem cleanup_idempotent_spec_witness :
    cleanup (cleanup basePlaying) = cleanup basePlaying ∧
    (cleanup basePlaying).rubbleFree = List.range MAX_RUBBLE ∧
    (cleanup basePlaying).rubbleActive = [] :=
  ⟨(cleanup_idempotent_spec basePlaying).1,
   ((cleanup_idempotent_spec basePlaying).2.2.2 rfl (by with_unfolding_all decide)).1,
   ((cleanup_idempotent_spec basePlaying).2.2.2 rfl (by with_unfolding_all decide)).2.1⟩

/-! ## Claim C3: partial placement and the rubble pool -/

theorem spawnNewBlock_rubbleData (s : GameState) (now : ℚ) (coin : Bool) :
    (spawnNewBlock s now coin).rubbleData = s.rubbleData := by
  unfold spawnNewBlock; split <;> rfl

theorem spawnNewBlock_rubbleFree (s : GameState) (now : ℚ) (coin : Bool) :
    (spawnNewBlock s now coin).rubbleFree = s.rubbleFree := by
  unfold spawnNewBlock; split <;> rfl

theorem spawnNewBlock_rubbleActive (s : GameState) (now : ℚ) (coin : Bool) :
    (spawnNewBlock s now coin).rubbleActive = s.rubbleActive := by
  unfold spawnNewBlock; split <;> rfl

theorem spawnNewBlock_stack (s : GameState) (now : ℚ) (coin : Bool) :
    (spawnNewBlock s now coin).stack = s.stack := by
  unfold spawnNewBlock; split <;> rfl

/-- When the free list is non-empty, `spawnRubble` pops its last index,
appends it to the active list and fills that slot. -/
theorem spawnRubble_acquire (s : GameState) (a p : Block) (ax : Axis)
    (delta overlap : ℚ) (angVel : Vec3) (idx : ℕ)
    (hfree : s.rubbleFree.getLast? = some idx) :
    spawnRubble s a p ax delta overlap angVel =
      { s with
        rubbleFree := s.rubbleFree.dropLast
        rubbleActive := s.rubbleActive ++ [idx]
        rubbleData := s.rubbleData.set idx
          { isActive := true
            position := a.pos.setAxis ax
              (p.pos.getAxis ax + (a.sizeOn ax / 2 + (a.sizeOn ax - overlap) / 2) * mathSign delta)
            rotation := ⟨0, 0, 0⟩
            scale :=
              match ax with
              | .x => ⟨a.sizeOn ax - overlap, BLOCK_HEIGHT, a.otherSizeOn ax⟩
              | .z => ⟨a.otherSizeOn ax, BLOCK_HEIGHT, a.sizeOn ax - overlap⟩
            velocity := ⟨0, -10, 0⟩
            angularVelocity := angVel } } := by
  unfold spawnRubble
  rw [hfree]

/-- **C3, counterexample.**  The claim states that every partial placement
moves exactly one slot from the free list to the active list.  When the free
list is empty the debris request is silently dropped: on `stateCutFull`
(a genuine partial placement, overlap 3 on a size-4 block, every slot
active) the placement completes — the score increments — but the pool lists
are unchanged and no slot transitions. -/
theorem placeBlock_partial_pool_exhausted_cex :
    1/20 < placementOverlap stateCutFull (hoverBlock 1) (flatBlock (5/2)) ∧
    placementOverlap stateCutFull (hoverBlock 1) (flatBlock (5/2)) <
      (hoverBlock 1).sizeOn stateCutFull.axis ∧
    stateCutFull.rubbleFree = [] ∧
    (placeBlock stateCutFull 5000 true ⟨0, 0, 0⟩ 0).rubbleActive = stateCutFull.rubbleActive ∧
    (placeBlock stateCutFull 5000 true ⟨0, 0, 0⟩ 0).rubbleFree = stateCutFull.rubbleFree ∧
    (placeBlock stateCutFull 5000 true ⟨0, 0, 0⟩ 0).score = stateCutFull.score + 1 := by
  with_unfolding_all decide

/-- **C3, amended.**  On a partial placement (`0.05 < overlap < size`) with
a *non-empty free list*, exactly one pool slot moves from the free list to
the active list, the placed block's extent on the motion axis equals the
overlap, the rubble fragment's extent on that axis equals `size − overlap`,
and trimmed size plus rubble size equals the original size.  (When the free
list is empty the request is silently dropped — see the counterexample.) -/
theorem placeBlock_partial_spec (s : GameState) (now : ℚ) (coin : Bool)
    (angVel : Vec3) (award : Fin 4) (a prev : Block) (idx : ℕ)
    (hact : s.activeBlock = some a)
    (hgrace : ¬(s.lastSpawnTime ≠ 0 ∧ now - s.lastSpawnTime < 2000))
    (hprev : s.stack.getLast? = some prev)
    (hlow : 1/20 < placementOverlap s a prev)
    (hhigh : placementOverlap s a prev < a.sizeOn s.axis)
    (hfree : s.rubbleFree.getLast? = some idx)
    (hidx : idx < s.rubbleData.length) :
    (placeBlock s now coin angVel award).rubbleActive = s.rubbleActive ++ [idx] ∧
    (placeBlock s now coin angVel award).rubbleFree = s.rubbleFree.dropLast ∧
    (∃ b, (placeBlock s now coin angVel award).stack = s.stack ++ [b] ∧
      b.sizeOn s.axis = placementOverlap s a prev) ∧
    ((placeBlock s now coin angVel award).rubbleData.getD idx initRubbleSlot).isActive = true ∧
    ((placeBlock s now coin angVel award).rubbleData.getD idx initRubbleSlot).scale.getAxis s.axis
      = a.sizeOn s.axis - placementOverlap s a prev ∧
    placementOverlap s a prev + (a.sizeOn s.axis - placementOverlap s a prev)
      = a.sizeOn s.axis := by
  have hdelta : roundedDelta s a prev ≠ 0 := by
    intro h0
    rw [placementOverlap, h0] at hhigh
    simp at hhigh
  have hnotmiss : ¬ placementOverlap s a prev ≤ 1/20 := not_le.mpr hlow
  have hsr := spawnRubble_acquire { s with combo := 0, activeBlock := some a } a prev s.axis
    (roundedDelta s a prev) (placementOverlap s a prev) angVel idx hfree
  unfold placeBlock
  simp only [hact, if_neg hgrace, hprev, if_neg hnotmiss, if_neg hdelta, hsr,
    spawnNewBlock_rubbleData, spawnNewBlock_rubbleFree, spawnNewBlock_rubbleActive,
    spawnNewBlock_stack]
  refine ⟨trivial, trivial, ⟨_, rfl, ?_⟩, ?_, ?_, by ring⟩
  · cases hax : s.axis <;> simp [Block.sizeOn, hax]
  · rw [List.getD_eq_getElem?_getD, List.getElem?_set_eq_of_lt]
    · rfl
    · exact hidx
  · rw [List.getD_eq_getElem?_getD, List.getElem?_set_eq_of_lt]
    · cases s.axis <;> rfl
    · exact hidx

/-- **C3, witness.**  The partial-placement theorem applied at the concrete
cut state (raw delta 1, overlap 3, pool fully free, slot 79 acquired). -/
theorem placeBlock_partial_spec_witness :
    (placeBlock stateCut 5000 true ⟨0, 0, 0⟩ 0).rubbleActive = stateCut.rubbleActive ++ [79] ∧
    (placeBlock stateCut 5000 true ⟨0, 0, 0⟩ 0).rubbleFree = stateCut.rubbleFree.dropLast ∧
    (∃ b, (placeBlock stateCut 5000 true ⟨0, 0, 0⟩ 0).stack = stateCut.stack ++ [b] ∧
      b.sizeOn stateCut.axis = placementOverlap stateCut (hoverBlock 1) (flatBlock (5/2))) ∧
    ((placeBlock stateCut 5000 true ⟨0, 0, 0⟩ 0).rubbleData.getD 79 initRubbleSlot).isActive
      = true ∧
    ((placeBlock stateCut 5000 true ⟨0, 0, 0⟩ 0).rubbleData.getD 79
        initRubbleSlot).scale.getAxis stateCut.axis
      = (hoverBlock 1).sizeOn stateCut.axis -
        placementOverlap stateCut (hoverBlock 1) (flatBlock (5/2)) ∧
    placementOverlap stateCut (hoverBlock 1) (flatBlock (5/2)) +
        ((hoverBlock 1).sizeOn stateCut.axis -
          placementOverlap stateCut (hoverBlock 1) (flatBlock (5/2)))
      = (hoverBlock 1).sizeOn stateCut.axis :=
  placeBlock_partial_spec stateCut 5000 true ⟨0, 0, 0⟩ 0 (hoverBlock 1) (flatBlock (5/2)) 79
    rfl (by with_unfolding_all decide) (by with_unfolding_all decide)
    (by with_unfolding_all decide) (by with_unfolding_all decide)
    (by with_unfolding_all decide) (by with_unfolding_all decide)

/-! ## Claim C5: the continue is limited to one per session -/

theorem cleanup_continuesUsed (s : GameState) :
    (cleanup s).continuesUsed = s.continuesUsed := by
  unfold cleanup
  split_ifs <;> rfl

theorem startGame_continuesUsed (s : GameState) (now : ℚ) (coin : Bool) :
    (startGame s now coin).continuesUsed = s.continuesUsed := by
  unfold startGame createFoundation
  rw [spawnNewBlock_continuesUsed]
  exact cleanup_continuesUsed _

theorem updatePowerUpTimers_continuesUsed (s : GameState) (dt : ℚ) :
    (updatePowerUpTimers s dt).continuesUsed = s.continuesUsed := by
  unfold updatePowerUpTimers
  split_ifs <;> simp [apply_ite GameState.continuesUsed]

theorem moveActiveBlock_continuesUsed (s : GameState) (dt : ℚ) :
    (moveActiveBlock s dt).continuesUsed = s.continuesUsed := by
  unfold moveActiveBlock
  repeat' split
  all_goals
    simp [updatePowerUpTimers_continuesUsed, apply_ite GameState.continuesUsed]

theorem rubbleTick_continuesUsed (s : GameState) (dt : ℚ) :
    (rubbleTick s dt).continuesUsed = s.continuesUsed := rfl

theorem pauseGame_continuesUsed (s : GameState) :
    (pauseGame s).continuesUsed = s.continuesUsed := by
  unfold pauseGame
  split <;> rfl

theorem resumeGame_continuesUsed (s : GameState) (now : ℚ) :
    (resumeGame s now).continuesUsed = s.continuesUsed := by
  unfold resumeGame
  split <;> rfl

theorem backToMenu_continuesUsed (s : GameState) :
    (backToMenu s).continuesUsed = s.continuesUsed := by
  unfold backToMenu
  split
  · exact cleanup_continuesUsed _
  · rfl

/-- Every UI/loop transition keeps `continuesUsed ≤ 1`: no modelled entry
point ever resets or raises it past 1, and the only increment (the continue
attempt) is guarded by the game-over screen's `continuesUsed < 1` check. -/
theorem sessionStep_continuesUsed_le (op : SessionOp) (s : GameState)
    (h : s.continuesUsed ≤ 1) : (sessionStep op s).continuesUsed ≤ 1 := by
  cases op with
  | engineInit => exact h
  | start now coin =>
    show (startGame s now coin).continuesUsed ≤ 1
    rw [startGame_continuesUsed]; exact h
  | drop now coin angVel award =>
    show (if s.status = Status.PLAYING
      then placeBlock s now coin angVel award else s).continuesUsed ≤ 1
    split
    · rw [placeBlock_continuesUsed]; exact h
    · exact h
  | frame dt =>
    show (rubbleTick (moveActiveBlock s dt) dt).continuesUsed ≤ 1
    rw [rubbleTick_continuesUsed, moveActiveBlock_continuesUsed]; exact h
  | pause =>
    show (pauseGame s).continuesUsed ≤ 1
    rw [pauseGame_continuesUsed]; exact h
  | resume now =>
    show (resumeGame s now).continuesUsed ≤ 1
    rw [resumeGame_continuesUsed]; exact h
  | menu =>
    show (backToMenu s).continuesUsed ≤ 1
    rw [backToMenu_continuesUsed]; exact h
  | tryContinue =>
    show (attemptContinue s).continuesUsed ≤ 1
    unfold attemptContinue
    split
    · next hcond =>
      show (continueGame s).continuesUsed ≤ 1
      unfold continueGame
      have := hcond.2
      simp only []
      omega
    · exact h

/-- **C5.**  In every state reachable from the state.js initial state
through the UI and the animation loop, `continuesUsed` never exceeds 1;
and once a continue has been counted, a further continue attempt is a strict
no-op (the game-over screen no longer offers the button), so it cannot
return the session to Playing with the consolation rewards again. -/
theorem continueGame_once_per_session :
    (∀ s, Reach s → s.continuesUsed ≤ 1) ∧
    (∀ s : GameState, 1 ≤ s.continuesUsed → attemptContinue s = s) := by
  constructor
  · intro s hs
    induction hs with
    | init => exact Nat.zero_le 1
    | step op hr ih => exact sessionStep_continuesUsed_le op _ ih
  · intro s h1
    unfold attemptContinue
    rw [if_neg]
    rintro ⟨-, hlt⟩
    omega

/-- **C5, witness.**  The cap theorem applied to the initial state (reachable
by `Reach.init`) and the strict no-op applied to a concrete game-over state
whose continue has been spent. -/
theorem continueGame_once_per_session_witness :
    initialState.continuesUsed ≤ 1 ∧
    attemptContinue stateContinueSpent = stateContinueSpent :=
  ⟨continueGame_once_per_session.1 initialState Reach.init,
   continueGame_once_per_session.2 stateContinueSpent (by decide)⟩

/-! ## Claim C4: the rubble-pool invariant -/

/-- A non-empty list is a permutation of its last element consed onto its
`dropLast`. -/
theorem perm_cons_dropLast_of_getLast? (l : List ℕ) (x : ℕ)
    (h : l.getLast? = some x) : l.Perm (x :: l.dropLast) := by
  have hne : l ≠ [] := by intro e; rw [e] at h; cases h
  have hx : l.getLast hne = x := by
    have h2 := List.getLast?_eq_getLast l hne
    rw [h] at h2
    exact (Option.some_inj.mp h2).symm
  conv_lhs => rw [← List.dropLast_append_getLast hne, hx]
  exact List.perm_append_comm

/-- A non-empty list equals its `dropLast` with its last element appended. -/
theorem eq_dropLast_append_of_getLast? (l : List ℕ) (x : ℕ)
    (h : l.getLast? = some x) : l = l.dropLast ++ [x] := by
  have hne : l ≠ [] := by intro e; rw [e] at h; cases h
  have hx : l.getLast hne = x := by
    have h2 := List.getLast?_eq_getLast l hne
    rw [h] at h2
    exact (Option.some_inj.mp h2).symm
  conv_lhs => rw [← List.dropLast_append_getLast hne, hx]

/-- `swapRemove` on a tail commutes with cons. -/
theorem swapRemove_cons (x : ℕ) (t : List ℕ) (a : ℕ) (ht : t ≠ []) :
    swapRemove (x :: t) (a + 1) = x :: swapRemove t a := by
  unfold swapRemove
  cases t with
  | nil => exact absurd rfl ht
  | cons y t0 =>
    simp only [List.getLast?_cons_cons, List.dropLast, List.length_cons, List.set_cons_succ]
    by_cases hcond : a < (List.dropLast (y :: t0)).length
    · rw [if_pos (by simpa using Nat.succ_lt_succ hcond), if_pos hcond]
    · rw [if_neg (by simpa using fun h => hcond (Nat.lt_of_succ_lt_succ h)), if_neg hcond]

/-- The swap-removal used by the rubble loop removes exactly the element at
position `a` (as a multiset): the list is a permutation of that element
consed onto the result. -/
theorem perm_cons_swapRemove :
    ∀ (a : ℕ) (l : List ℕ), a < l.length → l.Perm (l.getD a 0 :: swapRemove l a)
  | 0, [], h => absurd h (by simp)
  | 0, [x], _ => by
    show ([x] : List ℕ).Perm (([x].getD 0 0) :: swapRemove [x] 0)
    have h1 : swapRemove [x] 0 = [] := rfl
    rw [h1, List.getD_cons_zero]
  | 0, x :: y :: t0, _ => by
    have htne : (y :: t0 : List ℕ) ≠ [] := List.cons_ne_nil y t0
    have hlast : (y :: t0).getLast? = some ((y :: t0).getLast htne) :=
      List.getLast?_eq_getLast _ htne
    have hsw : swapRemove (x :: y :: t0) 0 =
        (y :: t0).getLast htne :: (y :: t0).dropLast := by
      unfold swapRemove
      simp only [List.getLast?_cons_cons, hlast, Option.getD_some, List.dropLast]
      rw [if_pos]
      · rfl
      · simp
    rw [List.getD_cons_zero, hsw]
    exact List.Perm.cons x (perm_cons_dropLast_of_getLast? _ _ hlast)
  | a + 1, [], h => absurd h (by simp)
  | a + 1, x :: t, h => by
    have ha : a < t.length := Nat.lt_of_succ_lt_succ h
    have htne : t ≠ [] := by
      intro e
      rw [e] at ha
      exact absurd ha (by simp)
    rw [swapRemove_cons x t a htne, List.getD_cons_succ]
    have ih := perm_cons_swapRemove a t ha
    exact (List.Perm.cons x ih).trans (List.Perm.swap (t.getD a 0) x (swapRemove t a))

/-- `initEngine` establishes the pool invariant. -/
theorem initEngine_poolInv (s : GameState) : (initEngine s).poolInv := by
  show PoolInv (List.replicate MAX_RUBBLE initRubbleSlot) (List.range MAX_RUBBLE) []
  refine ⟨by simp, by simp, ?_, ?_⟩
  · intro j hj
    have hj80 : j < MAX_RUBBLE := List.mem_range.mp hj
    rw [List.getD_eq_getElem?_getD, List.getElem?_replicate, if_pos hj80]
    rfl
  · intro j hj
    exact absurd hj (List.not_mem_nil j)

/-- `spawnRubble` preserves the pool invariant. -/
theorem spawnRubble_poolInv (s : GameState) (a p : Block) (ax : Axis)
    (delta overlap : ℚ) (angVel : Vec3) (hinv : s.poolInv) :
    (spawnRubble s a p ax delta overlap angVel).poolInv := by
  obtain ⟨hlen, hperm, hfreeF, hactT⟩ := hinv
  unfold spawnRubble
  cases hfree : s.rubbleFree.getLast? with
  | none => exact ⟨hlen, hperm, hfreeF, hactT⟩
  | some idx =>
    have hfeq := eq_dropLast_append_of_getLast? _ idx hfree
    have hnodup : (s.rubbleFree ++ s.rubbleActive).Nodup :=
      hperm.symm.nodup (List.nodup_range MAX_RUBBLE)
    obtain ⟨hndF, hndA, hdisj⟩ := List.nodup_append.mp hnodup
    have hidxF : idx ∈ s.rubbleFree := by
      rw [hfeq]
      exact List.mem_append_right _ (List.mem_singleton_self idx)
    have hidx80 : idx < MAX_RUBBLE :=
      List.mem_range.mp (hperm.mem_iff.mp (List.mem_append_left _ hidxF))
    have hidxlen : idx < s.rubbleData.length := by rw [hlen]; exact hidx80
    have hidxA : idx ∉ s.rubbleActive := fun hmem => hdisj hidxF hmem
    have hidxD : idx ∉ s.rubbleFree.dropLast := by
      intro hmem
      rw [hfeq] at hndF
      exact (List.nodup_append.mp hndF).2.2 hmem (List.mem_singleton_self idx)
    refine ⟨by simpa using hlen, ?_, ?_, ?_⟩
    · have h1 : s.rubbleFree.dropLast ++ (s.rubbleActive ++ [idx]) =
          (s.rubbleFree.dropLast ++ s.rubbleActive) ++ [idx] :=
        (List.append_assoc _ _ _).symm
      have h2 : ((s.rubbleFree.dropLast ++ s.rubbleActive) ++ [idx]).Perm
          ([idx] ++ (s.rubbleFree.dropLast ++ s.rubbleActive)) := List.perm_append_comm
      have h3 : ([idx] ++ (s.rubbleFree.dropLast ++ s.rubbleActive)) =
          ([idx] ++ s.rubbleFree.dropLast) ++ s.rubbleActive :=
        (List.append_assoc _ _ _).symm
      have h4 : (([idx] ++ s.rubbleFree.dropLast) ++ s.rubbleActive).Perm
          ((s.rubbleFree.dropLast ++ [idx]) ++ s.rubbleActive) :=
        List.Perm.append_right _ List.perm_append_comm
      have h5 : (s.rubbleFree.dropLast ++ [idx]) ++ s.rubbleActive =
          s.rubbleFree ++ s.rubbleActive := by rw [← hfeq]
      rw [h1]
      exact (h2.trans (h3 ▸ h4.trans (h5 ▸ hperm)))
    · intro j hj
      have hjF : j ∈ s.rubbleFree := by
        rw [hfeq]
        exact List.mem_append_left _ hj
      have hjne : idx ≠ j := fun e => hidxD (e ▸ hj)
      rw [List.getD_eq_getElem?_getD, List.getElem?_set_ne hjne,
        ← List.getD_eq_getElem?_getD]
      exact hfreeF j hjF
    · intro j hj
      rcases List.mem_append.mp hj with hjA | hjI
      · have hjne : idx ≠ j := fun e => hidxA (e ▸ hjA)
        rw [List.getD_eq_getElem?_getD, List.getElem?_set_ne hjne,
          ← List.getD_eq_getElem?_getD]
        exact hactT j hjA
      · have hje : j = idx := List.mem_singleton.mp hjI
        subst hje
        rw [List.getD_eq_getElem?_getD, List.getElem?_set_eq_of_lt _ hidxlen]
        rfl

/-- `cleanup` preserves (indeed re-establishes) the pool invariant. -/
theorem cleanup_poolInv (s : GameState) (hinv : s.poolInv) : (cleanup s).poolInv := by
  obtain ⟨hlen, hperm, hfreeF, hactT⟩ := hinv
  unfold cleanup
  by_cases hsc : s.hasScene = false
  · rw [if_pos hsc]
    exact ⟨hlen, hperm, hfreeF, hactT⟩
  · rw [if_neg hsc]
    by_cases hd : s.rubbleData.length ≠ 0
    · rw [if_pos hd]
      refine ⟨by simpa using hlen, by simp, ?_, ?_⟩
      · intro j hj
        have hj80 : j < MAX_RUBBLE := List.mem_range.mp hj
        have hjlen : j < s.rubbleData.length := by rw [hlen]; exact hj80
        rw [List.getD_eq_getElem?_getD, List.getElem?_map,
          List.getElem?_eq_getElem hjlen]
        rfl
      · intro j hj
        exact absurd hj (List.not_mem_nil j)
    · rw [if_neg hd]
      exact ⟨hlen, hperm, hfreeF, hactT⟩

/-- `resetGameState` preserves the pool invariant when the active list is
empty (the only situation in which it does). -/
theorem resetGameState_poolInv (s : GameState) (hinv : s.poolInv)
    (hact : s.rubbleActive = []) : (resetGameState s).poolInv := by
  obtain ⟨hlen, hperm, hfreeF, hactT⟩ := hinv
  rw [hact] at hperm
  refine ⟨hlen, ?_, hfreeF, ?_⟩
  · exact hperm
  · intro j hj
    exact absurd hj (List.not_mem_nil j)

/-- The rubble loop preserves the pool invariant, one iteration at a time. -/
theorem rubbleTickAux_poolInv (dt : ℚ) :
    ∀ (n : ℕ) (data : List RubbleSlot) (free active : List ℕ),
      n ≤ active.length → PoolInv data free active →
      PoolInv (rubbleTickAux dt n data free active).1
        (rubbleTickAux dt n data free active).2.1
        (rubbleTickAux dt n data free active).2.2 := by
  intro n
  induction n with
  | zero => intro data free active _ hinv; exact hinv
  | succ a ih =>
    intro data free active hle hinv
    obtain ⟨hlen, hperm, hfreeF, hactT⟩ := hinv
    have ha : a < active.length := hle
    have himem : active.getD a 0 ∈ active := by
      rw [List.getD_eq_getElem active 0 ha]
      exact List.getElem_mem ha
    have hiT : (data.getD (active.getD a 0) initRubbleSlot).isActive = true :=
      hactT _ himem
    have hnodup : (free ++ active).Nodup :=
      hperm.symm.nodup (List.nodup_range MAX_RUBBLE)
    obtain ⟨hndF, hndA, hdisj⟩ := List.nodup_append.mp hnodup
    have hi80 : active.getD a 0 < MAX_RUBBLE :=
      List.mem_range.mp (hperm.mem_iff.mp (List.mem_append_right _ himem))
    have hilen : active.getD a 0 < data.length := by rw [hlen]; exact hi80
    have hiF : active.getD a 0 ∉ free := fun hmem => hdisj hmem himem
    have hpc := perm_cons_swapRemove a active ha
    have hswlen : a ≤ (swapRemove active a).length := by
      have hl := hpc.length_eq
      simp only [List.length_cons] at hl
      omega
    have hndsw : (active.getD a 0 :: swapRemove active a).Nodup := hpc.nodup hndA
    have hisw : active.getD a 0 ∉ swapRemove active a := (List.nodup_cons.mp hndsw).1
    have hswmem : ∀ j ∈ swapRemove active a, j ∈ active := by
      intro j hj
      exact hpc.symm.mem_iff.mp (List.mem_cons_of_mem _ hj)
    have hcond : ¬ ((data.getD (active.getD a 0) initRubbleSlot).isActive = false) := by
      rw [hiT]
      exact fun hfalse => Bool.noConfusion hfalse
    rw [rubbleTickAux]
    simp only [if_neg hcond]
    by_cases hy :
        (integrateSlot (data.getD (active.getD a 0) initRubbleSlot) dt).position.y < -120
    · rw [if_pos hy]
      apply ih
      · exact hswlen
      · refine ⟨by simpa using hlen, ?_, ?_, ?_⟩
        · have h1 : (free ++ [active.getD a 0]) ++ swapRemove active a =
              free ++ (active.getD a 0 :: swapRemove active a) := by
            rw [List.append_assoc]
            rfl
          rw [h1]
          exact (List.Perm.append_left free hpc.symm).trans hperm
        · intro j hj
          rcases List.mem_append.mp hj with hjF | hjI
          · have hjne : active.getD a 0 ≠ j := fun e => hiF (e ▸ hjF)
            rw [List.getD_eq_getElem?_getD, List.getElem?_set_ne hjne,
              ← List.getD_eq_getElem?_getD]
            exact hfreeF j hjF
          · have hje : j = active.getD a 0 := List.mem_singleton.mp hjI
            subst hje
            rw [List.getD_eq_getElem?_getD, List.getElem?_set_eq_of_lt _ hilen]
            rfl
        · intro j hj
          have hjA : j ∈ active := hswmem j hj
          have hjne : active.getD a 0 ≠ j := fun e => hisw (e ▸ hj)
          rw [List.getD_eq_getElem?_getD, List.getElem?_set_ne hjne,
            ← List.getD_eq_getElem?_getD]
          exact hactT j hjA
    · rw [if_neg hy]
      apply ih
      · exact Nat.le_of_succ_le hle
      · refine ⟨by simpa using hlen, hperm, ?_, ?_⟩
        · intro j hj
          have hjne : active.getD a 0 ≠ j := fun e => hiF (e ▸ hj)
          rw [List.getD_eq_getElem?_getD, List.getElem?_set_ne hjne,
            ← List.getD_eq_getElem?_getD]
          exact hfreeF j hj
        · intro j hj
          by_cases hje : j = active.getD a 0
          · subst hje
            rw [List.getD_eq_getElem?_getD, List.getElem?_set_eq_of_lt _ hilen]
            exact hiT
          · rw [List.getD_eq_getElem?_getD,
              List.getElem?_set_ne (fun e => hje e.symm),
              ← List.getD_eq_getElem?_getD]
            exact hactT j hj

/-- The per-frame rubble integration preserves the pool invariant. -/
theorem rubbleTick_poolInv (s : GameState) (dt : ℚ) (hinv : s.poolInv) :
    (rubbleTick s dt).poolInv :=
  rubbleTickAux_poolInv dt s.rubbleActive.length s.rubbleData s.rubbleFree s.rubbleActive
    (Nat.le_refl _) hinv

/-- **C4, counterexample.**  The claim states that the pool invariant
`|free| + |active| = 80` is preserved by every operation including
`resetGameState`.  Reaching a state with one active rubble slot (engine
init, then one rubble spawn) and applying `resetGameState` drops the active
list without returning its slot, leaving `|free| + |active| = 79`. -/
theorem resetGameState_breaks_pool_cex :
    (spawnRubble (initEngine initialState) (hoverBlock 1) (flatBlock (1/2)) .x 1 3
        ⟨0, 0, 0⟩).rubbleFree.length +
      (spawnRubble (initEngine initialState) (hoverBlock 1) (flatBlock (1/2)) .x 1 3
        ⟨0, 0, 0⟩).rubbleActive.length = MAX_RUBBLE ∧
    (resetGameState (spawnRubble (initEngine initialState) (hoverBlock 1) (flatBlock (1/2))
        .x 1 3 ⟨0, 0, 0⟩)).rubbleFree.length +
      (resetGameState (spawnRubble (initEngine initialState) (hoverBlock 1) (flatBlock (1/2))
        .x 1 3 ⟨0, 0, 0⟩)).rubbleActive.length ≠ MAX_RUBBLE := by
  with_unfolding_all decide

/-- **C4, amended.**  The pool invariant — 80 slots, the free and active
lists a permutation of all slot indices with `isActive` flags consistent —
is established by engine initialisation and preserved by `spawnRubble`, the
per-frame integration/recycling loop and `cleanup`; `resetGameState`
preserves it only when the active list is empty (otherwise it clears the
active list without refilling the free list — see the counterexample).  The
invariant implies the claimed property: `|free| + |active| = 80` and no
index is in both lists. -/
theorem rubblePool_invariant :
    (∀ s : GameState, (initEngine s).poolInv) ∧
    (∀ (s : GameState) (a p : Block) (ax : Axis) (delta overlap : ℚ) (angVel : Vec3),
      s.poolInv → (spawnRubble s a p ax delta overlap angVel).poolInv) ∧
    (∀ (s : GameState) (dt : ℚ), s.poolInv → (rubbleTick s dt).poolInv) ∧
    (∀ s : GameState, s.poolInv → (cleanup s).poolInv) ∧
    (∀ s : GameState, s.poolInv → s.rubbleActive = [] → (resetGameState s).poolInv) ∧
    (∀ s : GameState, s.poolInv →
      s.rubbleFree.length + s.rubbleActive.length = MAX_RUBBLE ∧
      s.rubbleFree.Disjoint s.rubbleActive) := by
  refine ⟨initEngine_poolInv,
    fun s a p ax delta overlap angVel => spawnRubble_poolInv s a p ax delta overlap angVel,
    fun s dt => rubbleTick_poolInv s dt,
    cleanup_poolInv,
    resetGameState_poolInv, ?_⟩
  intro s hinv
  obtain ⟨hlen, hperm, -, -⟩ := hinv
  constructor
  · have hl := hperm.length_eq
    rw [List.length_append, List.length_range] at hl
    exact hl
  · have hnodup : (s.rubbleFree ++ s.rubbleActive).Nodup :=
      hperm.symm.nodup (List.nodup_range MAX_RUBBLE)
    exact (List.nodup_append.mp hnodup).2.2

/-- **C4, witness.**  The invariant theorem applied at the freshly
initialised engine. -/
theorem rubblePool_invariant_witness :
    (initEngine initialState).rubbleFree.length +
      (initEngine initialState).rubbleActive.length = MAX_RUBBLE ∧
    (initEngine initialState).rubbleFree.Disjoint (initEngine initialState).rubbleActive :=
  rubblePool_invariant.2.2.2.2.2 (initEngine initialState)
    (rubblePool_invariant.1 initialState)

end StackVR
